import Mathlib

/-!
Verification of the BrownBook task-tracker engine (app.js, embedded in the
repository README).  The engine is shallowly embedded: JavaScript objects
become Lean structures, the mutable `appData` singleton becomes an explicit
`AppData` value threaded through pure functions, and machine numbers become
`Int`/`Nat` (JS numbers are float64; all quantities handled by the verified
claims are small integers, exact in float64).  Wall-clock reads are modelled
by an explicit timestamp parameter (`Ts`), i.e. an injectable clock.
Timestamps are local-time `(day, hour)` pairs on an abstract integer day
line; minutes/seconds and DST are irrelevant to every verified property and
are not modelled.
-/

namespace BrownBook

/-- A local timestamp: an integer calendar-day index and an hour 0..23.
Only the day and hour components are ever inspected by the engine. -/
structure Ts where
  day : Int
  hour : Nat
  deriving DecidableEq, Repr

/-- Absolute position of a timestamp in hours, used for JS `Date` comparisons
(`expiresAt <= now` etc.). -/
def Ts.absHours (t : Ts) : Int := t.day * 24 + t.hour

/-- `getTodayDateString` from app.js: if the local hour is before 6, the
previous calendar day is used; the result is the (local) calendar date.
Dates are modelled as integer day indices. -/
def getTodayDateString (now : Ts) : Int :=
  if now.hour < 6 then now.day - 1 else now.day

/-- `getResetDateString` from app.js: a verbatim duplicate of
`getTodayDateString` used by the shop code. -/
def getResetDateString (now : Ts) : Int :=
  if now.hour < 6 then now.day - 1 else now.day

/-- The day-bucketing pattern that app.js re-implements inline wherever a
history timestamp is grouped into a day (toggleRecurringTask removal,
renderHistory grouping, the analytics loops, the migration cleanup):
shift back one day when the hour is before 6. -/
def histBucketDay (t : Ts) : Int :=
  if t.hour < 6 then t.day - 1 else t.day

/-- Difficulty tiers (the keys of the `DIFFICULTIES` table). -/
inductive Difficulty
  | quick
  | easy
  | medium
  | hard
  | epic
  deriving DecidableEq, Repr

/-- Coin reward per difficulty tier, from the `DIFFICULTIES` table. -/
def Difficulty.coins : Difficulty → Int
  | .quick => 5
  | .easy => 15
  | .medium => 25
  | .hard => 50
  | .epic => 75

/-- A subtask of a one-off or recurring task. -/
structure Subtask where
  id : Nat
  completed : Bool
  coins : Int := 0
  deriving DecidableEq, Repr

/-- A one-off task / history entry.  JS uses duck-typed objects for both the
active task list and `completedHistory` (recurring completions are logged
as synthetic entries there), so one record type carries all fields; fields
absent on a given JS object are `none` / defaulted. -/
structure Task where
  id : Nat
  difficulty : Difficulty
  completed : Bool := false
  completedAt : Option Ts := none
  isRecurring : Bool := false
  recurringId : Option Nat := none
  /-- Only backfill-created history entries carry a `coins` field. -/
  coins : Option Int := none
  subtasks : List Subtask := []
  distributeCoins : Bool := false
  expiresAt : Option Ts := none
  deriving DecidableEq, Repr

/-- Recurrence type of a recurring task definition. -/
inductive RecType
  | daily
  | interval
  deriving DecidableEq, Repr

/-- A recurring task definition.  `cycleStartDate` and `createdAt` are JS
date strings / ISO timestamps; both functions that read `cycleStartDate`
normalize it to a fixed hour, so only its calendar day matters and it is
modelled as a day index. -/
structure RecurringTask where
  id : Nat
  difficulty : Difficulty
  type : Option RecType := none
  activeDays : Nat := 0
  breakDays : Nat := 0
  cycleStartDate : Option Int := none
  createdAt : Option Ts := none
  subtasks : List Subtask := []
  distributeCoins : Bool := false
  deriving DecidableEq, Repr

/-- A flat-cost custom reward. -/
structure Reward where
  id : Nat
  cost : Int
  timesClaimed : Nat := 0
  lastClaimedAt : Option Ts := none
  deriving DecidableEq, Repr

/-- A shop item's purchase record: `count` purchases since `lastResetDate`. -/
structure PurchaseRec where
  count : Nat
  lastResetDate : Int
  deriving DecidableEq, Repr

/-- Scaling strategy of a shop item (`item.scalingType || add`). -/
inductive ScalingType
  | add
  | multiply
  deriving DecidableEq, Repr

/-- A shop item (preset or custom).  `scaling` defaulted to 0 mirrors
`item.scaling || 0`. -/
structure ShopItem where
  id : Nat
  baseCost : Int
  scaling : Int := 0
  scalingType : ScalingType := .add
  deriving DecidableEq, Repr

/-- The `appData.stats` object.  Streak fields are not touched by any
verified claim and are omitted.  The three one-time-migration flags stored
in `stats` by `runMigrationsAndCleanup` are modelled as booleans. -/
structure Stats where
  totalCoinsEarned : Int := 0
  currentBalance : Int := 0
  tasksCompletedQuick : Nat := 0
  tasksCompletedEasy : Nat := 0
  tasksCompletedMedium : Nat := 0
  tasksCompletedHard : Nat := 0
  tasksCompletedEpic : Nat := 0
  rewardsClaimed : Nat := 0
  economyRecalc202601 : Bool := false
  weekendSaleRefund20260118 : Bool := false
  jan20MissingTasksFixV2 : Bool := false
  deriving DecidableEq, Repr

/-- The whole `appData` snapshot.  JS object maps (`recurringCompletions`,
`shopPurchases`) are modelled as duplicate-free association lists with
lookup / set / delete helpers below. -/
structure AppData where
  tasks : List Task := []
  recurringTasks : List RecurringTask := []
  recurringCompletions : List (Nat × Int) := []
  completedHistory : List Task := []
  rewards : List Reward := []
  customShopItems : List ShopItem := []
  stats : Stats := {}
  shopPurchases : List (Nat × PurchaseRec) := []
  deriving DecidableEq, Repr

/-- The initial (new-user) `appData` literal. -/
def initialData : AppData := {}

/-- Lookup in a JS-object-as-map. -/
def mapLookup {β : Type} (m : List (Nat × β)) (k : Nat) : Option β :=
  (m.find? (fun p => p.1 == k)).map (·.2)

/-- `delete m[k]` on a JS-object-as-map. -/
def mapDelete {β : Type} (m : List (Nat × β)) (k : Nat) : List (Nat × β) :=
  m.filter (fun p => p.1 ≠ k)

/-- `m[k] = v` on a JS-object-as-map. -/
def mapSet {β : Type} (m : List (Nat × β)) (k : Nat) (v : β) : List (Nat × β) :=
  (k, v) :: mapDelete m k

/-- JS `findIndex` followed by `splice(i, 1)`: remove the first element
satisfying `p`, returning it and the remaining list. -/
def extractFirst {α : Type} (p : α → Bool) : List α → Option (α × List α)
  | [] => none
  | x :: xs =>
      if p x then some (x, xs)
      else
        match extractFirst p xs with
        | none => none
        | some (y, rest) => some (y, x :: rest)

/-- `incrementTaskCount` from app.js: bump the per-difficulty counter. -/
def incrementTaskCount (d : Difficulty) (st : Stats) : Stats :=
  match d with
  | .quick => { st with tasksCompletedQuick := st.tasksCompletedQuick + 1 }
  | .easy => { st with tasksCompletedEasy := st.tasksCompletedEasy + 1 }
  | .medium => { st with tasksCompletedMedium := st.tasksCompletedMedium + 1 }
  | .hard => { st with tasksCompletedHard := st.tasksCompletedHard + 1 }
  | .epic => { st with tasksCompletedEpic := st.tasksCompletedEpic + 1 }

/-- `decrementTaskCount` from app.js: decrement the per-difficulty counter,
guarded so it never goes below zero. -/
def decrementTaskCount (d : Difficulty) (st : Stats) : Stats :=
  match d with
  | .quick =>
      { st with tasksCompletedQuick :=
          if st.tasksCompletedQuick > 0 then st.tasksCompletedQuick - 1
          else st.tasksCompletedQuick }
  | .easy =>
      { st with tasksCompletedEasy :=
          if st.tasksCompletedEasy > 0 then st.tasksCompletedEasy - 1
          else st.tasksCompletedEasy }
  | .medium =>
      { st with tasksCompletedMedium :=
          if st.tasksCompletedMedium > 0 then st.tasksCompletedMedium - 1
          else st.tasksCompletedMedium }
  | .hard =>
      { st with tasksCompletedHard :=
          if st.tasksCompletedHard > 0 then st.tasksCompletedHard - 1
          else st.tasksCompletedHard }
  | .epic =>
      { st with tasksCompletedEpic :=
          if st.tasksCompletedEpic > 0 then st.tasksCompletedEpic - 1
          else st.tasksCompletedEpic }

/-- `toggleTask` from app.js (the complete direction: find the task in the
active list, mark it completed, credit coins to both totals, bump the
per-difficulty counter, and move the record to the head of history).
Operating on a missing id is a no-op. -/
def toggleTask (id : Nat) (now : Ts) (s : AppData) : AppData :=
  match extractFirst (fun t => t.id == id) s.tasks with
  | none => s
  | some (task, rest) =>
      let task' := { task with completed := true, completedAt := some now }
      let coins := task.difficulty.coins
      { s with
        tasks := rest
        completedHistory := task' :: s.completedHistory
        stats :=
          incrementTaskCount task.difficulty
            { s.stats with
              totalCoinsEarned := s.stats.totalCoinsEarned + coins
              currentBalance := s.stats.currentBalance + coins } }

/-- `uncompleteTask` from app.js: find the entry in `completedHistory`,
reverse the coin credit and the per-difficulty counter, clear the
completion fields and move the record back to the head of the active
list.  Missing id: no-op. -/
def uncompleteTask (id : Nat) (s : AppData) : AppData :=
  match extractFirst (fun t => t.id == id) s.completedHistory with
  | none => s
  | some (task, rest) =>
      let coins := task.difficulty.coins
      let task' := { task with completed := false, completedAt := none }
      { s with
        completedHistory := rest
        tasks := task' :: s.tasks
        stats :=
          decrementTaskCount task.difficulty
            { s.stats with
              totalCoinsEarned := s.stats.totalCoinsEarned - coins
              currentBalance := s.stats.currentBalance - coins } }

/-- `isRecurringCompletedToday` from app.js. -/
def isRecurringCompletedToday (id : Nat) (now : Ts) (s : AppData) : Bool :=
  mapLookup s.recurringCompletions id == some (getTodayDateString now)

/-- The predicate used by `toggleRecurringTask` to find today's history
entry for a recurring task: same `recurringId`, and `completedAt` present
and bucketed (6AM rule) to today. -/
def matchesRecurringToday (id : Nat) (today : Int) (t : Task) : Bool :=
  t.recurringId == some id &&
    match t.completedAt with
    | some ca => histBucketDay ca == today
    | none => false

/-- The id of the synthetic history entry created for a recurring
completion.  app.js builds a fresh string from the task id and the clock;
no verified property depends on its value. -/
def recurringHistId (id : Nat) : Nat := id

/-- `toggleRecurringTask` from app.js: if the task is marked completed
today, reverse the coins/counter, delete the completion-map entry and
remove today's matching history entry; otherwise credit the coins, record
today in the completion map and prepend a synthetic history entry. -/
def toggleRecurringTask (id : Nat) (now : Ts) (s : AppData) : AppData :=
  match s.recurringTasks.find? (fun t => t.id == id) with
  | none => s
  | some task =>
      let today := getTodayDateString now
      let coins := task.difficulty.coins
      if isRecurringCompletedToday id now s then
        let history' :=
          match extractFirst (matchesRecurringToday id today) s.completedHistory with
          | none => s.completedHistory
          | some (_, rest) => rest
        { s with
          stats :=
            decrementTaskCount task.difficulty
              { s.stats with
                totalCoinsEarned := s.stats.totalCoinsEarned - coins
                currentBalance := s.stats.currentBalance - coins }
          recurringCompletions := mapDelete s.recurringCompletions id
          completedHistory := history' }
      else
        let entry : Task :=
          { id := recurringHistId id
            difficulty := task.difficulty
            completed := true
            completedAt := some now
            isRecurring := true
            recurringId := some id }
        { s with
          stats :=
            incrementTaskCount task.difficulty
              { s.stats with
                totalCoinsEarned := s.stats.totalCoinsEarned + coins
                currentBalance := s.stats.currentBalance + coins }
          recurringCompletions := mapSet s.recurringCompletions id today
          completedHistory := entry :: s.completedHistory }

/-- `deleteRecurringTask` from app.js: drop the definition and its
completion-map entry; nothing else is touched. -/
def deleteRecurringTask (id : Nat) (s : AppData) : AppData :=
  { s with
    recurringTasks := s.recurringTasks.filter (fun t => t.id ≠ id)
    recurringCompletions := mapDelete s.recurringCompletions id }

/-- JS `Math.ceil(b * 0.5)`, exact for every integer `b`. -/
def jsCeilHalf (b : Int) : Int := -((-b).fdiv 2)

/-- Ceiling of `x * sqrt n` over the reals, computed with integer
arithmetic.  Models the JS multiply-under-sale price
`Math.ceil(saleBase * Math.pow(Math.sqrt(scaling), count))` with
`Math.sqrt` read as exact real square root (float64 rounding of the
irrational intermediate is out of scope). -/
def ceilMulSqrt (x : Int) (n : Nat) : Int :=
  if 0 ≤ x then
    let m := x.toNat ^ 2 * n
    let s := Nat.sqrt m
    if s * s == m then (s : Int) else (s : Int) + 1
  else
    -(Nat.sqrt ((-x).toNat ^ 2 * n) : Int)

/-- `getShopItemPrice` from app.js.  The wall-clock sale predicate
`isWeekendSale() && isDailyShop` is injected as `saleActive`; `now`
supplies `getResetDateString()`. -/
def getShopItemPrice (item : ShopItem) (now : Ts) (saleActive : Bool)
    (s : AppData) : Int :=
  let resetDate := getResetDateString now
  let purchaseCount : Nat :=
    match mapLookup s.shopPurchases item.id with
    | some rec => if rec.lastResetDate == resetDate then rec.count else 0
    | none => 0
  let hasIncrement :=
    (item.scalingType == .multiply && item.scaling > 1) ||
      (item.scalingType == .add && item.scaling > 0)
  if !hasIncrement then
    if saleActive then jsCeilHalf item.baseCost else item.baseCost
  else
    match item.scalingType with
    | .multiply =>
        if saleActive then
          let saleBase := jsCeilHalf item.baseCost
          ceilMulSqrt saleBase (item.scaling.toNat ^ purchaseCount)
        else
          item.baseCost * item.scaling ^ purchaseCount
    | .add =>
        if saleActive then
          let saleBase := jsCeilHalf item.baseCost
          let effectiveCount : Nat := purchaseCount / 2
          saleBase + effectiveCount * item.scaling
        else
          item.baseCost + purchaseCount * item.scaling

/-- What `confirmClaimReward` is asked to claim: either a shop item (the
modal captured `item` and the price computed at open time) or a custom
flat-cost reward (captured by id). -/
inductive ClaimTarget
  | shopItem (itemId : Nat) (price : Int)
  | customReward (rewardId : Nat)
  deriving DecidableEq, Repr

/-- `confirmClaimReward` from app.js.  Shop branch: reject (no mutation)
when the balance is below the captured price, otherwise debit the balance,
bump `rewardsClaimed` and update the purchase record (reset to 1 on a new
reset-date, else increment).  Custom-reward branch: debit the cost, bump
`rewardsClaimed` and the reward's `timesClaimed` — the source performs no
balance check on this branch. -/
def confirmClaimReward (target : ClaimTarget) (now : Ts) (s : AppData) : AppData :=
  match target with
  | .shopItem itemId price =>
      if s.stats.currentBalance < price then s
      else
        let resetDate := getResetDateString now
        let purchases' :=
          match mapLookup s.shopPurchases itemId with
          | some rec =>
              if rec.lastResetDate ≠ resetDate then
                mapSet s.shopPurchases itemId { count := 1, lastResetDate := resetDate }
              else
                mapSet s.shopPurchases itemId
                  { rec with count := rec.count + 1 }
          | none =>
              mapSet s.shopPurchases itemId { count := 1, lastResetDate := resetDate }
        { s with
          stats :=
            { s.stats with
              currentBalance := s.stats.currentBalance - price
              rewardsClaimed := s.stats.rewardsClaimed + 1 }
          shopPurchases := purchases' }
  | .customReward rewardId =>
      match s.rewards.find? (fun r => r.id == rewardId) with
      | none => s
      | some reward =>
          { s with
            stats :=
              { s.stats with
                currentBalance := s.stats.currentBalance - reward.cost
                rewardsClaimed := s.stats.rewardsClaimed + 1 }
            rewards :=
              s.rewards.map (fun r =>
                if r.id == rewardId then
                  { r with
                    timesClaimed := r.timesClaimed + 1
                    lastClaimedAt := some now }
                else r) }

/-- Toggle the `completed` flag of subtask `subId` inside a subtask list
(the in-place mutation `subtask.completed = !subtask.completed`). -/
def flipSubtask (subId : Nat) (l : List Subtask) : List Subtask :=
  l.map (fun st => if st.id == subId then { st with completed := !st.completed } else st)

/-- `toggleSubtask` from app.js for a one-off parent task: flip the
subtask, apply the distributed-coin credit/debit, then auto-complete the
parent when all subtasks are done, or re-open a completed parent when one
is unchecked. -/
def toggleSubtaskTask (parentId subId : Nat) (now : Ts) (s : AppData) : AppData :=
  match s.tasks.find? (fun t => t.id == parentId) with
  | none => s
  | some task =>
      match task.subtasks.find? (fun st => st.id == subId) with
      | none => s
      | some subtask =>
          let nowCompleted := !subtask.completed
          let subtasks' := flipSubtask subId task.subtasks
          let s1 :=
            { s with
              tasks := s.tasks.map (fun t =>
                if t.id == parentId then { t with subtasks := subtasks' } else t) }
          let s2 :=
            if task.distributeCoins && subtask.coins > 0 then
              if nowCompleted then
                { s1 with stats :=
                    { s1.stats with
                      totalCoinsEarned := s1.stats.totalCoinsEarned + subtask.coins
                      currentBalance := s1.stats.currentBalance + subtask.coins } }
              else
                { s1 with stats :=
                    { s1.stats with
                      totalCoinsEarned := s1.stats.totalCoinsEarned - subtask.coins
                      currentBalance := s1.stats.currentBalance - subtask.coins } }
            else s1
          let allCompleted := subtasks'.all (·.completed)
          if allCompleted then
            if !task.completed then toggleTask parentId now s2 else s2
          else
            if task.completed then uncompleteTask parentId s2 else s2

/-- `toggleSubtask` from app.js for a recurring parent: flip the subtask,
apply the distributed-coin logic, then either complete the parent for
today (all subtasks done) or, when unchecking under a parent completed
today, remove today's history entry and reverse its coins.  The source
reads `entry.coins` there, which is absent (`undefined`, giving NaN in JS)
on entries logged by `toggleRecurringTask`; the absent case is modelled as
0 — the only property verified over this branch (earned minus balance)
subtracts the same value from both totals either way. -/
def toggleSubtaskRecurring (parentId subId : Nat) (now : Ts) (s : AppData) : AppData :=
  match s.recurringTasks.find? (fun t => t.id == parentId) with
  | none => s
  | some task =>
      match task.subtasks.find? (fun st => st.id == subId) with
      | none => s
      | some subtask =>
          let nowCompleted := !subtask.completed
          let subtasks' := flipSubtask subId task.subtasks
          let s1 :=
            { s with
              recurringTasks := s.recurringTasks.map (fun t =>
                if t.id == parentId then { t with subtasks := subtasks' } else t) }
          let s2 :=
            if task.distributeCoins && subtask.coins > 0 then
              if nowCompleted then
                { s1 with stats :=
                    { s1.stats with
                      totalCoinsEarned := s1.stats.totalCoinsEarned + subtask.coins
                      currentBalance := s1.stats.currentBalance + subtask.coins } }
              else
                { s1 with stats :=
                    { s1.stats with
                      totalCoinsEarned := s1.stats.totalCoinsEarned - subtask.coins
                      currentBalance := s1.stats.currentBalance - subtask.coins } }
            else s1
          let allCompleted := subtasks'.all (·.completed)
          if allCompleted then
            if !isRecurringCompletedToday parentId now s2 then
              toggleRecurringTask parentId now s2
            else s2
          else
            if isRecurringCompletedToday parentId now s2 then
              let today := getTodayDateString now
              match extractFirst (matchesRecurringToday parentId today) s2.completedHistory with
              | none => s2
              | some (entry, rest) =>
                  { s2 with
                    stats :=
                      decrementTaskCount entry.difficulty
                        { s2.stats with
                          totalCoinsEarned :=
                            s2.stats.totalCoinsEarned - entry.coins.getD 0
                          currentBalance :=
                            s2.stats.currentBalance - entry.coins.getD 0 }
                    completedHistory := rest }
            else s2

/-- `cleanupExpiredTasks` from app.js: silently drop active tasks whose
`expiresAt` has passed (`new Date(t.expiresAt) <= now`). -/
def cleanupExpiredTasks (now : Ts) (s : AppData) : AppData :=
  { s with
    tasks := s.tasks.filter (fun t =>
      match t.expiresAt with
      | none => true
      | some e => e.absHours > now.absHours) }

/-- Id of the preset recurring task the Jan-20 repair looks up by the JS
string id `brush_night`; string ids are modelled as distinguished naturals. -/
def brushNightId : Nat := 9001

/-- Id of the preset recurring task with JS string id `floss`. -/
def flossId : Nat := 9002

/-- Id of the fixed history entry `fix_brush_night_jan20`. -/
def fixBrushNightJan20Id : Nat := 9003

/-- Id of the fixed history entry `fix_floss_jan20`. -/
def fixFlossJan20Id : Nat := 9004

/-- The constant timestamp `2026-01-20T22:00:00.000Z` used by the Jan-20
repair, placed on the abstract day line. -/
def jan20Ts : Ts := { day := 20, hour := 22 }

/-- The history entry pushed by the Jan-20 repair for a found task. -/
def jan20FixEntry (entryId : Nat) (t : RecurringTask) : Task :=
  { id := entryId
    difficulty := t.difficulty
    isRecurring := true
    recurringId := t.id
    completedAt := some jan20Ts }

/-- One lookup-and-insert step of the Jan-20 repair: if the recurring task
with the given id exists and the fixed-id history entry is not already
present, append the entry. -/
def jan20AddFor (taskId entryId : Nat) (s : AppData) : AppData :=
  match s.recurringTasks.find? (fun t => t.id == taskId) with
  | none => s
  | some task =>
      if s.completedHistory.any (fun h => h.id == entryId) then s
      else { s with completedHistory := s.completedHistory ++ [jan20FixEntry entryId task] }

/-- The zombie test of the migration cleanup: a history record that is
recurring, bucketed to today, but absent from the completion map, is
removed (`filter` keeps everything else). -/
def keepsNonZombie (s : AppData) (today : Int) (h : Task) : Bool :=
  if !h.isRecurring then true
  else
    match h.completedAt with
    | none => true
    | some ca =>
        if histBucketDay ca == today then
          match h.recurringId with
          | none => false
          | some rid =>
              match mapLookup s.recurringCompletions rid with
              | none => false
              | some _ => true
        else true

/-- Whether the history has an entry for recurring task `taskId` bucketed
to `today` (the orphan check of the migration cleanup). -/
def hasHistoryEntryToday (s : AppData) (taskId : Nat) (today : Int) : Bool :=
  s.completedHistory.any (fun h =>
    h.recurringId == some taskId &&
      match h.completedAt with
      | some ca => histBucketDay ca == today
      | none => false)

/-- The field-migration block of `runMigrationsAndCleanup`: relocate
completed tasks found in the active list into history. -/
def migrateCompletedTasks (s : AppData) : AppData :=
  { s with
    completedHistory := s.tasks.filter (·.completed) ++ s.completedHistory
    tasks := s.tasks.filter (fun t => !t.completed) }

/-- The one-time economy recalculation: rebuild `totalCoinsEarned` from
history and rederive the balance by subtracting the implied spend. -/
def economyRecalcStep (s : AppData) : AppData :=
  if !s.stats.economyRecalc202601 then
    let impliedSpending := s.stats.totalCoinsEarned - s.stats.currentBalance
    let trueTotalEarned :=
      (s.completedHistory.map (fun t => t.difficulty.coins)).sum
    { s with stats :=
        { s.stats with
          totalCoinsEarned := trueTotalEarned
          currentBalance := trueTotalEarned - impliedSpending
          economyRecalc202601 := true } }
  else s

/-- The one-time weekend-sale refund: `currentBalance += 36` with no
matching change to `totalCoinsEarned`. -/
def weekendRefundStep (s : AppData) : AppData :=
  if !s.stats.weekendSaleRefund20260118 then
    { s with stats :=
        { s.stats with
          currentBalance := s.stats.currentBalance + 36
          weekendSaleRefund20260118 := true } }
  else s

/-- The one-time Jan-20 repair: insert the two fixed history entries when
their tasks exist, and credit 10 coins to both totals unconditionally. -/
def jan20FixStep (s : AppData) : AppData :=
  if !s.stats.jan20MissingTasksFixV2 then
    let sa := jan20AddFor brushNightId fixBrushNightJan20Id s
    let sb := jan20AddFor flossId fixFlossJan20Id sa
    { sb with stats :=
        { sb.stats with
          currentBalance := sb.stats.currentBalance + 10
          totalCoinsEarned := sb.stats.totalCoinsEarned + 10
          jan20MissingTasksFixV2 := true } }
  else s

/-- The zombie cleanup: drop recurring history entries bucketed to today
that the completion map does not confirm. -/
def zombieCleanupStep (today : Int) (s : AppData) : AppData :=
  { s with
    completedHistory := s.completedHistory.filter (keepsNonZombie s today) }

/-- The orphan cleanup: drop completion-map entries for today with no
matching history entry. -/
def orphanCleanupStep (today : Int) (s : AppData) : AppData :=
  { s with
    recurringCompletions := s.recurringCompletions.filter (fun p =>
      !(p.2 == today && !hasHistoryEntryToday s p.1 today)) }

/-- The stale cleanup: drop completion-map entries for other days. -/
def staleCleanupStep (today : Int) (s : AppData) : AppData :=
  { s with
    recurringCompletions := s.recurringCompletions.filter (fun p => p.2 == today) }

/-- `runMigrationsAndCleanup` from app.js: the blocks above in source
order. -/
def runMigrationsAndCleanup (now : Ts) (s : AppData) : AppData :=
  let today := getTodayDateString now
  staleCleanupStep today
    (orphanCleanupStep today
      (zombieCleanupStep today
        (jan20FixStep
          (weekendRefundStep
            (economyRecalcStep
              (migrateCompletedTasks s))))))

/-- The constant timestamp `2026-01-31T23:00:00` used by `runBackfillJan31`,
on the abstract day line. -/
def backfillDate : Ts := { day := 31, hour := 23 }

/-- One `tasksToFind` step of `runBackfillJan31`: find the first recurring
task matched by `pred` (an exact-id or title-substring test in the
source); unless a history entry for that task already sits in the Jan-31
bucket, append a backfill entry carrying a `coins` field and credit the
task's coins to both totals and its per-difficulty counter.  `newId`
stands for the fresh JS id `Date.now() + random`. -/
def backfillJan31For (pred : RecurringTask → Bool) (newId : Nat) (s : AppData) : AppData :=
  match s.recurringTasks.find? pred with
  | none => s
  | some task =>
      let backfillDateStr := backfillDate.day
      let alreadyDone :=
        s.completedHistory.any (fun h =>
          match h.completedAt with
          | none => false
          | some ca => histBucketDay ca == backfillDateStr && h.recurringId == some task.id)
      if alreadyDone then s
      else
        let coins := task.difficulty.coins
        let entry : Task :=
          { id := newId
            difficulty := task.difficulty
            coins := some coins
            completedAt := some backfillDate
            isRecurring := true
            recurringId := some task.id }
        { s with
          completedHistory := s.completedHistory ++ [entry]
          stats :=
            incrementTaskCount task.difficulty
              { s.stats with
                totalCoinsEarned := s.stats.totalCoinsEarned + coins
                currentBalance := s.stats.currentBalance + coins } }

/-- `shouldShowIntervalTask` from app.js: the activity test used for
today's rendering.  Daily (or untyped) tasks always show; interval tasks
without a cycle start always show; otherwise the current app-date (6AM
shift applied to `now`) and the cycle start's calendar day are both pinned
to 06:00 and the day difference is reduced modulo the cycle length with
JS `%` (truncated remainder, negative for dates before the cycle start). -/
def shouldShowIntervalTask (task : RecurringTask) (now : Ts) : Bool :=
  match task.type with
  | none => true
  | some .daily => true
  | some .interval =>
      match task.cycleStartDate with
      | none => true
      | some c =>
          let daysSinceStart : Int := getTodayDateString now - c
          let totalCycle : Int := task.activeDays + task.breakDays
          daysSinceStart.tmod totalCycle < task.activeDays

/-- `isTaskActiveOnDate` from app.js: the activity test used by the
analytics.  The queried date and `createdAt` / `cycleStartDate` are pinned
to local midnight, so only their calendar days are compared; a task is
inactive before its `createdAt` calendar day, interval tasks are inactive
before the cycle start and otherwise follow the cycle position. -/
def isTaskActiveOnDate (task : RecurringTask) (d : Int) : Bool :=
  let beforeCreation : Bool :=
    match task.createdAt with
    | some ca => d < ca.day
    | none => false
  if beforeCreation then false
  else
    match task.type with
    | none => true
    | some .daily => true
    | some .interval =>
        match task.cycleStartDate with
        | none => true
        | some c =>
            let daysDiff := d - c
            if daysDiff < 0 then false
            else
              let cycleLength : Int := task.activeDays + task.breakDays
              daysDiff.tmod cycleLength < task.activeDays

/-- The recurring tasks active on calendar day `d`
(`appData.recurringTasks.filter(task => isTaskActiveOnDate(task, date))`). -/
def activeTasksOnDay (s : AppData) (d : Int) : List RecurringTask :=
  s.recurringTasks.filter (fun t => isTaskActiveOnDate t d)

/-- The `completedOnDay` set of `calculateRecurringConsistency`: the
distinct recurring-task ids with a recurring history entry bucketed (6AM
shift) to day `d` and contained in the active-id list. -/
def completedOnDay (s : AppData) (d : Int) (activeIds : List Nat) : List Nat :=
  ((s.completedHistory.filter (·.isRecurring)).filterMap (fun t =>
    match t.completedAt, t.recurringId with
    | some ca, some rid =>
        if histBucketDay ca == d && activeIds.contains rid then some rid else none
    | _, _ => none)).dedup

/-- The completion rate of one day with at least one active task:
`completedOnDay.size / tasksExpected * 100`. -/
def dayRate (s : AppData) (d : Int) : ℚ :=
  let active := activeTasksOnDay s d
  ((completedOnDay s d (active.map (·.id))).length : ℚ) / (active.length : ℚ) * 100

/-- The per-day loop body shared by all four ranges of
`calculateRecurringConsistency`: walk the days in order, `continue` past
days with no active task, and collect the remaining days' rates. -/
def dailyRatesList (s : AppData) : List Int → List ℚ
  | [] => []
  | d :: ds =>
      if (activeTasksOnDay s d).length = 0 then dailyRatesList s ds
      else dayRate s d :: dailyRatesList s ds

/-- The weekly / monthly / yearly bucket aggregation of
`calculateRecurringConsistency`: `continue` (no bucket) when every
constituent day was skipped, else the unweighted mean of the collected
daily rates. -/
def periodBucketRate (s : AppData) (days : List Int) : Option ℚ :=
  let rates := dailyRatesList s days
  if rates.isEmpty then none
  else some (rates.sum / (rates.length : ℚ))

/-- One engine event: the user actions and load-time routines that mutate
the snapshot.  Each carries the wall-clock timestamp it runs at (the
injectable clock); a shop claim carries the price the modal captured when
it was opened. -/
inductive Op
  | toggle (id : Nat) (now : Ts)
  | uncomplete (id : Nat)
  | toggleRecurring (id : Nat) (now : Ts)
  | subtaskTask (parentId subId : Nat) (now : Ts)
  | subtaskRecurring (parentId subId : Nat) (now : Ts)
  | claim (target : ClaimTarget) (now : Ts)
  | deleteRecurring (id : Nat)
  | migrate (now : Ts)
  | cleanupExpired (now : Ts)
  | backfill (pred : RecurringTask → Bool) (newId : Nat)

/-- Apply one engine event to the snapshot. -/
def applyOp : Op → AppData → AppData
  | .toggle id now => toggleTask id now
  | .uncomplete id => uncompleteTask id
  | .toggleRecurring id now => toggleRecurringTask id now
  | .subtaskTask p sub now => toggleSubtaskTask p sub now
  | .subtaskRecurring p sub now => toggleSubtaskRecurring p sub now
  | .claim target now => confirmClaimReward target now
  | .deleteRecurring id => deleteRecurringTask id
  | .migrate now => runMigrationsAndCleanup now
  | .cleanupExpired now => cleanupExpiredTasks now
  | .backfill pred newId => backfillJan31For pred newId

/-- The price actually paid by an event from state `s`: the captured price
for a shop claim that passes the balance check, the reward's cost for a
custom-reward claim that finds its reward (the source debits that branch
unconditionally), 0 for everything else. -/
def opSpend (op : Op) (s : AppData) : Int :=
  match op with
  | .claim (.shopItem _ price) _ =>
      if s.stats.currentBalance < price then 0 else price
  | .claim (.customReward rewardId) _ =>
      match s.rewards.find? (fun r => r.id == rewardId) with
      | none => 0
      | some reward => reward.cost
  | _ => 0

/-- Run a sequence of engine events. -/
def run (ops : List Op) (s : AppData) : AppData :=
  match ops with
  | [] => s
  | op :: rest => run rest (applyOp op s)

/-- The cumulative sum of prices paid along a sequence of engine events. -/
def totalSpend (ops : List Op) (s : AppData) : Int :=
  match ops with
  | [] => 0
  | op :: rest => opSpend op s + totalSpend rest (applyOp op s)

/-- Earned-minus-balance of a stats record, corrected by the weekend-sale
refund flag. -/
def statsLedger (st : Stats) : Int :=
  st.totalCoinsEarned - st.currentBalance +
    (if st.weekendSaleRefund20260118 then 36 else 0)

/-- Earned-minus-balance corrected by the weekend-sale refund: the
quantity each engine event shifts by exactly the price it charges. -/
def ledger (s : AppData) : Int := statsLedger s.stats

/-- Number of history entries logged for recurring task `i` on app-date
`d` — the pairs the engine treats as "completed that day". -/
def pairCount (s : AppData) (i : Nat) (d : Int) : Nat :=
  (s.completedHistory.filter (matchesRecurringToday i d)).length

/-- Number of history entries with `isRecurring = true` whose recurring id
and 6AM-bucketed app-date match the pair `(i, d)`. -/
def recCount (s : AppData) (i : Nat) (d : Int) : Nat :=
  (s.completedHistory.filter (fun t => t.isRecurring && matchesRecurringToday i d t)).length

/-- The coupling invariant between `completedHistory` and
`recurringCompletions` for one `(task, app-date)` pair. -/
def PairInv (s : AppData) (i : Nat) (d : Int) : Prop :=
  pairCount s i d ≤ 1 ∧
    (pairCount s i d = 1 → mapLookup s.recurringCompletions i = some d)

/-- Run a sequence of recurring-task toggles (id, clock) in order. -/
def runToggles (toggles : List (Nat × Ts)) (s : AppData) : AppData :=
  match toggles with
  | [] => s
  | p :: rest => runToggles rest (toggleRecurringTask p.1 p.2 s)

/-- The interval task of testable property 3: `activeDays = 3`,
`breakDays = 1`, cycle starting at day 0. -/
def c4IntervalTask : RecurringTask :=
  { id := 1, difficulty := .easy, type := some .interval
    activeDays := 3, breakDays := 1, cycleStartDate := some 0 }

/-- The same interval shape with the cycle starting at day 5, queried
before the cycle start. -/
def c4FutureTask : RecurringTask :=
  { id := 1, difficulty := .easy, type := some .interval
    activeDays := 3, breakDays := 1, cycleStartDate := some 5 }

/-- A daily task created at 02:00 local on day 1 — its app-date (6AM
boundary) is day 0, its calendar date day 1. -/
def c8DailyTask : RecurringTask :=
  { id := 1, difficulty := .easy, type := some .daily, createdAt := some ⟨1, 2⟩ }

/-- A custom reward costing 10 coins. -/
def c3Reward : Reward := { id := 5, cost := 10 }

/-- A state holding only that reward, with a zero balance. -/
def c3State : AppData := { rewards := [c3Reward] }

/-- The shop item of testable property 5: `baseCost = 40`, `scaling = 10`,
additive scaling. -/
def c5Item : ShopItem := { id := 1, baseCost := 40, scaling := 10, scalingType := .add }

/-- A state whose purchase record for that item shows `k` purchases on
reset-date 10. -/
def c5State (k : Nat) : AppData :=
  { shopPurchases := [(1, { count := k, lastResetDate := 10 })] }

/-- A clock on day 10, noon, whose reset-date is day 10. -/
def c5Now : Ts := { day := 10, hour := 12 }

/-- A one-off hard task used to exercise the completion round trip. -/
def c1Task : Task := { id := 7, difficulty := .hard }

/-- A state whose active list holds exactly that task. -/
def c1State : AppData := { tasks := [c1Task] }

/-- A daily recurring task used to exercise the toggle invariant. -/
def c6Task : RecurringTask := { id := 1, difficulty := .medium, type := some .daily }

/-- A state holding exactly that recurring task and an empty history. -/
def c6State : AppData := { recurringTasks := [c6Task] }

/-- A one-day-on / one-day-off recurring task starting at day 0: inactive
on every odd day. -/
def c9Task : RecurringTask :=
  { id := 2, difficulty := .hard, type := some .interval
    activeDays := 1, breakDays := 1, cycleStartDate := some 0 }

/-- A state holding exactly that interval task. -/
def c9State : AppData := { recurringTasks := [c9Task] }

/-!  Helper lemmas about the embedded primitives. -/

theorem extractFirst_of_exists {α : Type} (p : α → Bool) (l : List α)
    (h : ∃ x ∈ l, p x = true) :
    ∃ y rest, extractFirst p l = some (y, rest) ∧ p y = true := by
  induction l with
  | nil => simp at h
  | cons x xs ih =>
      by_cases hx : p x = true
      · exact ⟨x, xs, by simp [extractFirst, hx], hx⟩
      · obtain ⟨z, hz, hpz⟩ := h
        rcases List.mem_cons.mp hz with hz | hz
        · exact absurd (hz ▸ hpz) hx
        · obtain ⟨y, rest, hext, hpy⟩ := ih ⟨z, hz, hpz⟩
          refine ⟨y, x :: rest, ?_, hpy⟩
          simp [extractFirst, hx, hext]

theorem extractFirst_perm {α : Type} (p : α → Bool) (l : List α) (y : α)
    (rest : List α) (h : extractFirst p l = some (y, rest)) :
    l.Perm (y :: rest) := by
  induction l generalizing y rest with
  | nil => simp [extractFirst] at h
  | cons x xs ih =>
      rw [extractFirst] at h
      by_cases hx : p x = true
      · rw [if_pos hx] at h
        simp only [Option.some.injEq, Prod.mk.injEq] at h
        obtain ⟨rfl, rfl⟩ := h
        exact List.Perm.refl _
      · rw [if_neg hx] at h
        cases hrec : extractFirst p xs with
        | none => rw [hrec] at h; exact absurd h (by simp)
        | some pr =>
            obtain ⟨a, b⟩ := pr
            rw [hrec] at h
            simp only [Option.some.injEq, Prod.mk.injEq] at h
            obtain ⟨rfl, rfl⟩ := h
            exact ((ih a b hrec).cons x).trans (List.Perm.swap a x b)

theorem extractFirst_sat {α : Type} (p : α → Bool) (l : List α) (y : α)
    (rest : List α) (h : extractFirst p l = some (y, rest)) : p y = true := by
  induction l generalizing y rest with
  | nil => simp [extractFirst] at h
  | cons x xs ih =>
      rw [extractFirst] at h
      by_cases hx : p x = true
      · rw [if_pos hx] at h
        simp only [Option.some.injEq, Prod.mk.injEq] at h
        exact h.1 ▸ hx
      · rw [if_neg hx] at h
        cases hrec : extractFirst p xs with
        | none => rw [hrec] at h; exact absurd h (by simp)
        | some pr =>
            obtain ⟨a, b⟩ := pr
            rw [hrec] at h
            simp only [Option.some.injEq, Prod.mk.injEq] at h
            exact h.1 ▸ ih a b hrec

theorem mapLookup_set_self {β : Type} (m : List (Nat × β)) (k : Nat) (v : β) :
    mapLookup (mapSet m k v) k = some v := by
  simp [mapLookup, mapSet, List.find?]

theorem mapLookup_delete_self {β : Type} (m : List (Nat × β)) (k : Nat) :
    mapLookup (mapDelete m k) k = none := by
  have hfind : List.find? (fun p => p.1 == k) (mapDelete m k) = none := by
    rw [List.find?_eq_none]
    intro x hx
    have hmem := List.of_mem_filter hx
    simp at hmem ⊢
    exact hmem
  simp [mapLookup, hfind]

theorem mapLookup_delete_other {β : Type} (m : List (Nat × β)) (k j : Nat)
    (h : j ≠ k) : mapLookup (mapDelete m k) j = mapLookup m j := by
  induction m with
  | nil => rfl
  | cons q rest ih =>
      by_cases hq : q.1 = k
      · have hqj : (q.1 == j) = false := by
          simp [hq]
          exact fun e => h e.symm
        have step1 : mapDelete (q :: rest) k = mapDelete rest k := by
          simp [mapDelete, List.filter_cons, hq]
        rw [step1, ih]
        simp [mapLookup, List.find?_cons, hqj]
      · have step1 : mapDelete (q :: rest) k = q :: mapDelete rest k := by
          simp [mapDelete, List.filter_cons, hq]
        rw [step1]
        by_cases hqj : q.1 = j
        · simp [mapLookup, List.find?_cons, hqj]
        · have hb : (q.1 == j) = false := by simpa using hqj
          simp only [mapLookup, List.find?_cons, hb, cond_false]
          exact ih

theorem mapLookup_set_other {β : Type} (m : List (Nat × β)) (k j : Nat) (v : β)
    (h : j ≠ k) : mapLookup (mapSet m k v) j = mapLookup m j := by
  have hb : ((k, v).1 == j) = false := by
    simp
    exact fun e => h e.symm
  simp only [mapSet, mapLookup, List.find?_cons, hb, cond_false]
  exact mapLookup_delete_other m k j h

theorem decrement_increment_cancel (d : Difficulty) (st : Stats) :
    decrementTaskCount d (incrementTaskCount d st) = st := by
  cases d <;> simp [incrementTaskCount, decrementTaskCount]

/-- C5: for the shop item with baseCost 40, scaling 10, additive scaling,
the computed price at purchase counts 0, 1, 2 within the same reset day is
40, 50, 60 outside a sale window, and 20, 20, 30 during a sale window
(half base rounded up, increment applied only every second purchase). -/
theorem c5_shop_pricing :
    (getShopItemPrice c5Item c5Now false (c5State 0) = 40 ∧
     getShopItemPrice c5Item c5Now false (c5State 1) = 50 ∧
     getShopItemPrice c5Item c5Now false (c5State 2) = 60) ∧
    (getShopItemPrice c5Item c5Now true (c5State 0) = 20 ∧
     getShopItemPrice c5Item c5Now true (c5State 1) = 20 ∧
     getShopItemPrice c5Item c5Now true (c5State 2) = 30) := by
  decide

/-- C7: every app-date bucketing site (getTodayDateString, the shop's
getResetDateString duplicate, and the inline history/analytics bucketing)
assigns a timestamp with local hour before 06:00 to the previous calendar
date, and a timestamp at 06:00 or later to its own calendar date. -/
theorem c7_day_boundary (ts : Ts) :
    (ts.hour < 6 →
      getTodayDateString ts = ts.day - 1 ∧ getResetDateString ts = ts.day - 1 ∧
        histBucketDay ts = ts.day - 1) ∧
    (6 ≤ ts.hour →
      getTodayDateString ts = ts.day ∧ getResetDateString ts = ts.day ∧
        histBucketDay ts = ts.day) := by
  unfold getTodayDateString getResetDateString histBucketDay
  constructor
  · intro h
    simp [h]
  · intro h
    have h6 : ¬ ts.hour < 6 := by omega
    simp [h6]

/-- Witness for C7 at 02:00 of day 5 and 06:00 of day 5. -/
theorem c7_day_boundary_witness :
    getTodayDateString ⟨5, 2⟩ = 4 ∧ histBucketDay ⟨5, 6⟩ = 5 :=
  ⟨((c7_day_boundary ⟨5, 2⟩).1 (by decide)).1, ((c7_day_boundary ⟨5, 6⟩).2 (by decide)).2.2⟩

/-- C10: deleting a recurring task removes its definition from
recurringTasks and its entry from recurringCompletions, and leaves
completedHistory, the stats block (totalCoinsEarned, currentBalance and
every per-difficulty counter), the active task list and the rewards
unchanged. -/
theorem c10_delete_recurring_frame (s : AppData) (id : Nat) :
    (deleteRecurringTask id s).recurringTasks = s.recurringTasks.filter (fun t => t.id ≠ id) ∧
    mapLookup (deleteRecurringTask id s).recurringCompletions id = none ∧
    (deleteRecurringTask id s).completedHistory = s.completedHistory ∧
    (deleteRecurringTask id s).stats = s.stats ∧
    (deleteRecurringTask id s).tasks = s.tasks ∧
    (deleteRecurringTask id s).rewards = s.rewards := by
  refine ⟨rfl, ?_, rfl, rfl, rfl, rfl⟩
  exact mapLookup_delete_self _ _

/-- Counterexample for C4 as stated: for an interval task whose cycle
starts at day 5, the today-query at noon of day 2 reports the task active
(JS negative remainder) while the analytics query for the same date
reports it inactive — the two activity checks disagree before the cycle
start. -/
theorem c4_counterexample :
    getTodayDateString ⟨2, 12⟩ = 2 ∧
    shouldShowIntervalTask c4FutureTask ⟨2, 12⟩ = true ∧
    isTaskActiveOnDate c4FutureTask 2 = false := by
  decide

/-- C4 (amended): the today activity check depends only on the task and
the queried app-date (purity); the analytics check agrees with the today
check whenever the queried date is on or after both the creation calendar
day and the cycle start; and the 3-on/1-off task starting at day 0 shows
the exact pattern active, active, active, inactive over days 0..7 under
both checks. -/
theorem c4_amended :
    (∀ (t : RecurringTask) (ts₁ ts₂ : Ts),
        getTodayDateString ts₁ = getTodayDateString ts₂ →
        shouldShowIntervalTask t ts₁ = shouldShowIntervalTask t ts₂) ∧
    (∀ (t : RecurringTask) (d : Int) (ts : Ts), getTodayDateString ts = d →
        (∀ ca, t.createdAt = some ca → ca.day ≤ d) →
        (∀ c, t.cycleStartDate = some c → c ≤ d) →
        isTaskActiveOnDate t d = shouldShowIntervalTask t ts) ∧
    ((List.range 8).map (fun d => isTaskActiveOnDate c4IntervalTask (d : Int))
        = [true, true, true, false, true, true, true, false]) ∧
    ((List.range 8).map (fun d => shouldShowIntervalTask c4IntervalTask ⟨(d : Int), 12⟩)
        = [true, true, true, false, true, true, true, false]) := by
  refine ⟨?_, ?_, by decide, by decide⟩
  · intro t ts₁ ts₂ h
    simp only [shouldShowIntervalTask, h]
  · intro t d ts hts hca hcs
    have hbc : (match t.createdAt with
        | some ca => decide (d < ca.day)
        | none => false) = false := by
      cases hc : t.createdAt with
      | none => rfl
      | some ca =>
          have hle := hca ca hc
          simp only [decide_eq_false_iff_not]
          omega
    simp only [isTaskActiveOnDate, shouldShowIntervalTask, hbc, hts]
    cases hty : t.type with
    | none => rfl
    | some rt =>
        cases rt with
        | daily => rfl
        | interval =>
            cases hcyc : t.cycleStartDate with
            | none => rfl
            | some c =>
                have hc := hcs c hcyc
                have hneg : ¬ (d - c < 0) := by omega
                simp [hneg]

/-- Witness for C4 (amended) at the concrete 3-on/1-off task, day 2. -/
theorem c4_amended_witness :
    isTaskActiveOnDate c4IntervalTask 2 = shouldShowIntervalTask c4IntervalTask ⟨2, 12⟩ :=
  c4_amended.2.1 c4IntervalTask 2 ⟨2, 12⟩ (by decide)
    (by intro ca hca; simp [c4IntervalTask] at hca)
    (by intro c hc; simp [c4IntervalTask] at hc; omega)

/-- Counterexample for C8 as stated: a daily task created at 02:00 of
day 1 has createdAt app-date 0, so the claim reports it active on day 0,
but isTaskActiveOnDate compares against the createdAt calendar day (1)
and reports it inactive. -/
theorem c8_counterexample :
    histBucketDay ⟨1, 2⟩ = 0 ∧
    c8DailyTask.createdAt = some ⟨1, 2⟩ ∧
    c8DailyTask.type = some .daily ∧
    isTaskActiveOnDate c8DailyTask 0 = false := by
  decide

/-- C8 (amended): a daily (or untyped) recurring task is reported active
by the analytics check exactly on the dates not before its createdAt
local calendar date (midnight-normalized, not the 06:00 app-date); the
today rendering check shows daily tasks unconditionally and applies no
createdAt restriction. -/
theorem c8_amended (t : RecurringTask) (d : Int) (ca : Ts)
    (hty : t.type = none ∨ t.type = some .daily)
    (hca : t.createdAt = some ca) :
    (isTaskActiveOnDate t d = true ↔ ca.day ≤ d) ∧
    (∀ ts : Ts, shouldShowIntervalTask t ts = true) := by
  constructor
  · rcases hty with h | h <;>
      by_cases hlt : d < ca.day <;>
        simp [isTaskActiveOnDate, hca, h, hlt] <;> omega
  · intro ts
    unfold shouldShowIntervalTask
    rcases hty with h | h <;> simp [h]

/-- Witness for C8 (amended) at the concrete daily task and day 5. -/
theorem c8_amended_witness :
    isTaskActiveOnDate c8DailyTask 5 = true :=
  (c8_amended c8DailyTask 5 ⟨1, 2⟩ (Or.inr rfl) rfl).1.mpr (by decide)

/-- Counterexample for C3 as stated: claiming a custom reward costing 10
with balance 0 does not abort — the balance is driven to -10 and
rewardsClaimed is incremented. -/
theorem c3_counterexample :
    c3State.stats.currentBalance < c3Reward.cost ∧
    confirmClaimReward (.customReward c3Reward.id) c5Now c3State ≠ c3State ∧
    (confirmClaimReward (.customReward c3Reward.id) c5Now c3State).stats.currentBalance = -10 ∧
    (confirmClaimReward (.customReward c3Reward.id) c5Now c3State).stats.rewardsClaimed = 1 := by
  decide

/-- C3 (amended): for shop items an insufficient balance aborts the claim
with no state change at all; for custom rewards confirmClaimReward debits
the cost and increments the counters unconditionally, with no balance
check (the UI merely disables the claim button). -/
theorem c3_amended (s : AppData) (now : Ts) :
    (∀ itemId price, s.stats.currentBalance < price →
        confirmClaimReward (.shopItem itemId price) now s = s) ∧
    (∀ rid r, s.rewards.find? (fun x => x.id == rid) = some r →
        (confirmClaimReward (.customReward rid) now s).stats.currentBalance
            = s.stats.currentBalance - r.cost ∧
        (confirmClaimReward (.customReward rid) now s).stats.rewardsClaimed
            = s.stats.rewardsClaimed + 1) := by
  constructor
  · intro itemId price hlt
    simp only [confirmClaimReward]
    rw [if_pos hlt]
  · intro rid r hfind
    simp [confirmClaimReward, hfind]

/-- Witness for C3 (amended): a concrete rejected shop claim and a
concrete custom-reward debit. -/
theorem c3_amended_witness :
    confirmClaimReward (.shopItem 1 5) c5Now c3State = c3State ∧
    (confirmClaimReward (.customReward 5) c5Now c3State).stats.currentBalance = 0 - 10 :=
  ⟨(c3_amended c3State c5Now).1 1 5 (by decide),
   ((c3_amended c3State c5Now).2 5 c3Reward (by decide)).1⟩

theorem increment_update_comm (d : Difficulty) (st : Stats) (x y : Int) :
    incrementTaskCount d { st with totalCoinsEarned := x, currentBalance := y }
      = { incrementTaskCount d st with totalCoinsEarned := x, currentBalance := y } := by
  cases d <;> rfl

theorem incrementTaskCount_totalCoinsEarned (d : Difficulty) (st : Stats) :
    (incrementTaskCount d st).totalCoinsEarned = st.totalCoinsEarned := by
  cases d <;> rfl

theorem incrementTaskCount_currentBalance (d : Difficulty) (st : Stats) :
    (incrementTaskCount d st).currentBalance = st.currentBalance := by
  cases d <;> rfl

/-- C1: completing a one-off task in the active list and then
un-completing it restores the whole stats block (balance, total earned,
per-difficulty counters), restores the completed history, and returns the
task to the active list uncompleted. -/
theorem c1_roundtrip (s : AppData) (id : Nat) (now : Ts)
    (h : ∃ t ∈ s.tasks, t.id = id) :
    (uncompleteTask id (toggleTask id now s)).stats = s.stats ∧
    (uncompleteTask id (toggleTask id now s)).completedHistory = s.completedHistory ∧
    ∃ t ∈ (uncompleteTask id (toggleTask id now s)).tasks, t.id = id ∧ t.completed = false := by
  obtain ⟨task, rest, hext, hp⟩ :=
    extractFirst_of_exists (fun t => t.id == id) s.tasks
      (by
        obtain ⟨t, ht, hid⟩ := h
        exact ⟨t, ht, by simp [hid]⟩)
  have htog : toggleTask id now s =
      { s with
        tasks := rest
        completedHistory :=
          { task with completed := true, completedAt := some now } :: s.completedHistory
        stats :=
          incrementTaskCount task.difficulty
            { s.stats with
              totalCoinsEarned := s.stats.totalCoinsEarned + task.difficulty.coins
              currentBalance := s.stats.currentBalance + task.difficulty.coins } } := by
    unfold toggleTask
    rw [hext]
  have hp' : (({ task with completed := true, completedAt := some now } : Task).id == id) = true := hp
  have hunc : extractFirst (fun t => t.id == id)
      ({ task with completed := true, completedAt := some now } :: s.completedHistory)
      = some ({ task with completed := true, completedAt := some now }, s.completedHistory) := by
    unfold extractFirst
    rw [if_pos hp']
  rw [htog]
  unfold uncompleteTask
  rw [hunc]
  refine ⟨?_, rfl, ?_⟩
  · rw [increment_update_comm]
    cases hd : task.difficulty <;>
      simp [incrementTaskCount, decrementTaskCount]
  · have hid : task.id = id := by simpa using hp
    exact ⟨{ task with completed := false, completedAt := none }, by simp, hid, rfl⟩

/-- Witness for C1: the round trip on the concrete one-task state. -/
theorem c1_roundtrip_witness :
    (uncompleteTask 7 (toggleTask 7 ⟨3, 12⟩ c1State)).stats = c1State.stats :=
  (c1_roundtrip c1State 7 ⟨3, 12⟩ ⟨c1Task, by simp [c1State], rfl⟩).1

theorem dailyRatesList_eq (s : AppData) (days : List Int) :
    dailyRatesList s days
      = (days.filter (fun d => !(activeTasksOnDay s d).isEmpty)).map (dayRate s) := by
  induction days with
  | nil => rfl
  | cons d ds ih =>
      by_cases hd : (activeTasksOnDay s d).length = 0
      · have hemp : (activeTasksOnDay s d).isEmpty = true := by
          rw [List.isEmpty_iff]
          exact List.length_eq_zero.mp hd
        simp [dailyRatesList, hd, List.filter_cons, hemp, ih]
      · have hemp : (activeTasksOnDay s d).isEmpty = false := by
          cases hn : activeTasksOnDay s d with
          | nil => rw [hn] at hd; simp at hd
          | cons y ys => rfl
        simp [dailyRatesList, hd, List.filter_cons, hemp, ih]

/-- C9: a calendar day on which no recurring task is active contributes no
bucket to the daily view, and is excluded from the unweighted mean that
forms weekly, monthly and yearly buckets — the collected rate list is
exactly the per-day rates of the days with at least one active task, and
inserting an all-inactive day anywhere leaves every aggregate unchanged. -/
theorem c9_empty_days_excluded (s : AppData) (days : List Int) :
    dailyRatesList s days
      = (days.filter (fun d => !(activeTasksOnDay s d).isEmpty)).map (dayRate s) ∧
    periodBucketRate s days
      = (let rates := (days.filter (fun d => !(activeTasksOnDay s d).isEmpty)).map (dayRate s)
         if rates.isEmpty then none else some (rates.sum / (rates.length : ℚ))) ∧
    (∀ (d : Int) (pre post : List Int), activeTasksOnDay s d = [] →
        dailyRatesList s (pre ++ d :: post) = dailyRatesList s (pre ++ post) ∧
        periodBucketRate s (pre ++ d :: post) = periodBucketRate s (pre ++ post)) := by
  refine ⟨dailyRatesList_eq s days, ?_, ?_⟩
  · unfold periodBucketRate
    rw [dailyRatesList_eq]
  · intro d pre post hd
    have hpred : (!(activeTasksOnDay s d).isEmpty) = false := by simp [hd]
    have hlist : dailyRatesList s (pre ++ d :: post) = dailyRatesList s (pre ++ post) := by
      rw [dailyRatesList_eq, dailyRatesList_eq]
      simp [List.filter_append, List.filter_cons, hpred]
    refine ⟨hlist, ?_⟩
    unfold periodBucketRate
    rw [hlist]

/-- Witness for C9: day 1 is a break day of the 1-on/1-off task, so it
drops out of the rate list. -/
theorem c9_witness :
    dailyRatesList c9State [0, 1, 2] = dailyRatesList c9State [0, 2] :=
  ((c9_empty_days_excluded c9State [0, 1, 2]).2.2 1 [0] [2] (by decide)).1

theorem extractFirst_none_filter {α : Type} (p : α → Bool) (l : List α)
    (h : extractFirst p l = none) : l.filter p = [] := by
  induction l with
  | nil => rfl
  | cons x xs ih =>
      rw [extractFirst] at h
      by_cases hx : p x = true
      · rw [if_pos hx] at h
        exact absurd h (by simp)
      · rw [if_neg hx] at h
        cases hrec : extractFirst p xs with
        | none =>
            have hb : p x = false := by
              cases hv : p x
              · rfl
              · exact absurd hv hx
            simp [List.filter_cons, hb, ih hrec]
        | some pr =>
            rw [hrec] at h
            exact absurd h (by simp)

theorem filter_and_length_le {α : Type} (a b : α → Bool) (l : List α) :
    (l.filter (fun x => a x && b x)).length ≤ (l.filter b).length := by
  induction l with
  | nil => exact Nat.le_refl 0
  | cons x xs ih =>
      by_cases hb : b x = true
      · by_cases ha : a x = true
        · simp [List.filter_cons, hb, ha]
          exact ih
        · have ha' : a x = false := by
            cases hv : a x
            · rfl
            · exact absurd hv ha
          simp [List.filter_cons, hb, ha']
          exact Nat.le_succ_of_le ih
      · have hb' : b x = false := by
          cases hv : b x
          · rfl
          · exact absurd hv hb
        simp [List.filter_cons, hb']
        exact ih

theorem pairInv_toggle (i : Nat) (d : Int) (j : Nat) (ts : Ts) (s : AppData)
    (hinv : PairInv s i d) (hday : j = i → getTodayDateString ts = d) :
    PairInv (toggleRecurringTask j ts s) i d := by
  obtain ⟨hle, hone⟩ := hinv
  unfold toggleRecurringTask
  cases hfind : s.recurringTasks.find? (fun t => t.id == j) with
  | none => exact ⟨hle, hone⟩
  | some task =>
      dsimp only
      by_cases hcomp : isRecurringCompletedToday j ts s = true
      · rw [if_pos hcomp]
        cases hext : extractFirst (matchesRecurringToday j (getTodayDateString ts))
            s.completedHistory with
        | none =>
            refine ⟨hle, ?_⟩
            intro h1
            by_cases hji : j = i
            · exfalso
              have hfilter := extractFirst_none_filter _ _ hext
              rw [hji, hday hji] at hfilter
              unfold pairCount at h1
              simp only [hfilter] at h1
              exact absurd h1 (by simp)
            · unfold pairCount at h1
              rw [mapLookup_delete_other _ _ _ (fun e => hji e.symm)]
              exact hone h1
        | some pr =>
            obtain ⟨e, rest⟩ := pr
            dsimp only
            have hperm := extractFirst_perm _ _ _ _ hext
            have hsat := extractFirst_sat _ _ _ _ hext
            have hcnt : (s.completedHistory.filter (matchesRecurringToday i d)).length
                = ((e :: rest).filter (matchesRecurringToday i d)).length :=
              (hperm.filter _).length_eq
            unfold PairInv pairCount
            unfold pairCount at hle hone
            dsimp only
            by_cases hji : j = i
            · have hpe : matchesRecurringToday i d e = true := by
                rw [← hji, ← hday hji]
                exact hsat
              rw [List.filter_cons, if_pos (by rw [hpe])] at hcnt
              simp only [List.length_cons] at hcnt
              constructor
              · omega
              · intro h1
                omega
            · have hrid : e.recurringId = some j := by
                unfold matchesRecurringToday at hsat
                rcases (Bool.and_eq_true _ _).mp hsat with ⟨hr, _⟩
                simpa using hr
              have hji' : ((some j : Option Nat) == some i) = false := by
                apply beq_eq_false_iff_ne.mpr
                simpa using fun e' => hji e'
              have hpe : matchesRecurringToday i d e = false := by
                unfold matchesRecurringToday
                rw [hrid, hji', Bool.false_and]
              rw [List.filter_cons, if_neg (by rw [hpe]; simp)] at hcnt
              constructor
              · omega
              · intro h1
                rw [mapLookup_delete_other _ _ _ (fun e' => hji e'.symm)]
                exact hone (by omega)
      · rw [if_neg hcomp]
        by_cases hji : j = i
        · have htoday : getTodayDateString ts = d := hday hji
          have hpe : matchesRecurringToday i d
              ({ id := recurringHistId j
                 difficulty := task.difficulty
                 completed := true
                 completedAt := some ts
                 isRecurring := true
                 recurringId := some j } : Task) = true := by
            unfold matchesRecurringToday
            dsimp only
            rw [hji]
            have h1 : ((some i : Option Nat) == some i) = true := by simp
            have h2 : (histBucketDay ts == d) = true := by
              have : histBucketDay ts = d := by rw [← htoday]; rfl
              simp [this]
            rw [h1, h2]
            rfl
          have hzero : pairCount s i d = 0 := by
            rcases Nat.eq_or_lt_of_le hle with h1 | h1
            · exfalso
              have hlook := hone h1
              apply hcomp
              unfold isRecurringCompletedToday
              rw [← hji] at hlook
              rw [hlook, htoday]
              simp
            · omega
          unfold PairInv pairCount
          unfold pairCount at hzero
          dsimp only
          constructor
          · rw [List.filter_cons, if_pos (by rw [hpe])]
            simp only [List.length_cons]
            omega
          · intro _
            rw [hji]
            rw [mapLookup_set_self]
            rw [htoday]
        · have hji' : ((some j : Option Nat) == some i) = false := by
            apply beq_eq_false_iff_ne.mpr
            simpa using fun e' => hji e'
          have hpe : matchesRecurringToday i d
              ({ id := recurringHistId j
                 difficulty := task.difficulty
                 completed := true
                 completedAt := some ts
                 isRecurring := true
                 recurringId := some j } : Task) = false := by
            unfold matchesRecurringToday
            dsimp only
            rw [hji', Bool.false_and]
          unfold PairInv pairCount
          unfold pairCount at hle hone
          dsimp only
          rw [List.filter_cons, if_neg (by rw [hpe]; simp)]
          constructor
          · exact hle
          · intro h1
            rw [mapLookup_set_other _ _ _ _ (fun e' => hji e'.symm)]
            exact hone h1

theorem pairInv_runToggles (i : Nat) (d : Int) (toggles : List (Nat × Ts)) (s : AppData)
    (hinv : PairInv s i d)
    (hday : ∀ p ∈ toggles, p.1 = i → getTodayDateString p.2 = d) :
    PairInv (runToggles toggles s) i d := by
  induction toggles generalizing s with
  | nil => exact hinv
  | cons p rest ih =>
      exact ih (toggleRecurringTask p.1 p.2 s)
        (pairInv_toggle i d p.1 p.2 s hinv (hday p (by simp)))
        (fun q hq => hday q (by simp [hq]))

/-- C6: starting from any state satisfying the history/completion-map
coupling invariant (which the empty initial state does), any sequence of
recurring-task toggles whose toggles of task `i` all happen on app-date
`d` leaves at most one history entry with isRecurring true whose
recurring id and 6AM-bucketed app-date match `(i, d)`. -/
theorem c6_at_most_one (i : Nat) (d : Int) (s : AppData) (toggles : List (Nat × Ts))
    (hinv : PairInv s i d)
    (hday : ∀ p ∈ toggles, p.1 = i → getTodayDateString p.2 = d) :
    recCount (runToggles toggles s) i d ≤ 1 := by
  have h := pairInv_runToggles i d toggles s hinv hday
  have hsub : recCount (runToggles toggles s) i d
      ≤ pairCount (runToggles toggles s) i d := by
    unfold recCount pairCount
    exact filter_and_length_le (fun t => t.isRecurring) (matchesRecurringToday i d) _
  exact le_trans hsub h.1

/-- Witness for C6: three same-day toggles of the concrete daily task. -/
theorem c6_witness :
    recCount (runToggles [(1, ⟨3, 10⟩), (1, ⟨3, 12⟩), (1, ⟨3, 23⟩)] c6State) 1 3 ≤ 1 :=
  c6_at_most_one 1 3 c6State [(1, ⟨3, 10⟩), (1, ⟨3, 12⟩), (1, ⟨3, 23⟩)]
    ⟨by decide, by decide⟩ (by decide)

theorem statsLedger_incrementTaskCount (d : Difficulty) (st : Stats) :
    statsLedger (incrementTaskCount d st) = statsLedger st := by
  cases d <;> rfl

theorem statsLedger_decrementTaskCount (d : Difficulty) (st : Stats) :
    statsLedger (decrementTaskCount d st) = statsLedger st := by
  cases d <;> rfl

theorem ledger_toggleTask (id : Nat) (now : Ts) (s : AppData) :
    ledger (toggleTask id now s) = ledger s := by
  unfold toggleTask
  cases hext : extractFirst (fun t => t.id == id) s.tasks with
  | none => rfl
  | some pr =>
      obtain ⟨task, rest⟩ := pr
      dsimp only
      unfold ledger
      dsimp only
      rw [statsLedger_incrementTaskCount]
      unfold statsLedger
      dsimp only
      ring

theorem ledger_uncompleteTask (id : Nat) (s : AppData) :
    ledger (uncompleteTask id s) = ledger s := by
  unfold uncompleteTask
  cases hext : extractFirst (fun t => t.id == id) s.completedHistory with
  | none => rfl
  | some pr =>
      obtain ⟨task, rest⟩ := pr
      dsimp only
      unfold ledger
      dsimp only
      rw [statsLedger_decrementTaskCount]
      unfold statsLedger
      dsimp only
      ring

theorem ledger_toggleRecurringTask (id : Nat) (now : Ts) (s : AppData) :
    ledger (toggleRecurringTask id now s) = ledger s := by
  unfold toggleRecurringTask
  cases hfind : s.recurringTasks.find? (fun t => t.id == id) with
  | none => rfl
  | some task =>
      dsimp only
      by_cases hcomp : isRecurringCompletedToday id now s = true
      · rw [if_pos hcomp]
        unfold ledger
        dsimp only
        rw [statsLedger_decrementTaskCount]
        unfold statsLedger
        dsimp only
        ring
      · rw [if_neg hcomp]
        unfold ledger
        dsimp only
        rw [statsLedger_incrementTaskCount]
        unfold statsLedger
        dsimp only
        ring

theorem statsLedger_addBoth (st : Stats) (c : Int) :
    statsLedger
      { st with
        totalCoinsEarned := st.totalCoinsEarned + c
        currentBalance := st.currentBalance + c } = statsLedger st := by
  unfold statsLedger
  dsimp only
  ring

theorem statsLedger_subBoth (st : Stats) (c : Int) :
    statsLedger
      { st with
        totalCoinsEarned := st.totalCoinsEarned - c
        currentBalance := st.currentBalance - c } = statsLedger st := by
  unfold statsLedger
  dsimp only
  ring

theorem ledger_confirmClaimReward (target : ClaimTarget) (now : Ts) (s : AppData) :
    ledger (confirmClaimReward target now s)
      = ledger s + opSpend (.claim target now) s := by
  cases target with
  | shopItem itemId price =>
      unfold confirmClaimReward opSpend
      dsimp only
      by_cases hlt : s.stats.currentBalance < price
      · rw [if_pos hlt, if_pos hlt]
        ring
      · rw [if_neg hlt, if_neg hlt]
        unfold ledger statsLedger
        dsimp only
        ring
  | customReward rid =>
      unfold confirmClaimReward opSpend
      dsimp only
      cases hfind : s.rewards.find? (fun r => r.id == rid) with
      | none =>
          dsimp only
          ring
      | some r =>
          dsimp only
          unfold ledger statsLedger
          dsimp only
          ring

theorem ledger_toggleSubtaskTask (p sub : Nat) (now : Ts) (s : AppData) :
    ledger (toggleSubtaskTask p sub now s) = ledger s := by
  unfold toggleSubtaskTask
  cases hfind : s.tasks.find? (fun t => t.id == p) with
  | none => rfl
  | some task =>
      dsimp only
      cases hfs : task.subtasks.find? (fun st => st.id == sub) with
      | none => rfl
      | some subtask =>
          dsimp only
          split <;> split <;>
            first
            | rfl
            | (rw [ledger_toggleTask]
               split <;>
                 first
                 | rfl
                 | (split <;>
                      (unfold ledger statsLedger; dsimp only; ring)))
            | (rw [ledger_uncompleteTask]
               split <;>
                 first
                 | rfl
                 | (split <;>
                      (unfold ledger statsLedger; dsimp only; ring)))
            | (split <;>
                 first
                 | rfl
                 | (split <;>
                      (unfold ledger statsLedger; dsimp only; ring)))

theorem ledger_toggleSubtaskRecurring (p sub : Nat) (now : Ts) (s : AppData) :
    ledger (toggleSubtaskRecurring p sub now s) = ledger s := by
  unfold toggleSubtaskRecurring
  cases hfind : s.recurringTasks.find? (fun t => t.id == p) with
  | none => rfl
  | some task =>
      dsimp only
      cases hfs : task.subtasks.find? (fun st => st.id == sub) with
      | none => rfl
      | some subtask =>
          dsimp only
          repeat' split
          all_goals
            first
            | rfl
            | (rw [ledger_toggleRecurringTask]
               first
               | rfl
               | (unfold ledger statsLedger; dsimp only; ring))
            | (unfold ledger
               dsimp only
               rw [statsLedger_decrementTaskCount]
               unfold statsLedger
               dsimp only
               ring)
            | (unfold ledger statsLedger; dsimp only; ring)

theorem ledger_migrateCompletedTasks (s : AppData) :
    ledger (migrateCompletedTasks s) = ledger s := rfl

theorem ledger_economyRecalcStep (s : AppData) :
    ledger (economyRecalcStep s) = ledger s := by
  unfold economyRecalcStep
  cases hflag : s.stats.economyRecalc202601 with
  | false =>
      rw [if_pos (show (!false) = true from rfl)]
      unfold ledger statsLedger
      dsimp only
      ring
  | true =>
      rw [if_neg (show ¬(!true) = true from by simp)]

theorem ledger_weekendRefundStep (s : AppData) :
    ledger (weekendRefundStep s) = ledger s := by
  unfold weekendRefundStep
  cases hflag : s.stats.weekendSaleRefund20260118 with
  | false =>
      rw [if_pos (show (!false) = true from rfl)]
      unfold ledger statsLedger
      dsimp only
      rw [hflag]
      simp
      try ring
  | true =>
      rw [if_neg (show ¬(!true) = true from by simp)]

theorem jan20AddFor_stats (taskId entryId : Nat) (s : AppData) :
    (jan20AddFor taskId entryId s).stats = s.stats := by
  unfold jan20AddFor
  cases hfind : s.recurringTasks.find? (fun t => t.id == taskId) with
  | none => rfl
  | some task =>
      dsimp only
      split <;> rfl

theorem ledger_jan20FixStep (s : AppData) :
    ledger (jan20FixStep s) = ledger s := by
  unfold jan20FixStep
  cases hflag : s.stats.jan20MissingTasksFixV2 with
  | false =>
      rw [if_pos (show (!false) = true from rfl)]
      unfold ledger statsLedger
      simp only [jan20AddFor_stats]
      ring
  | true =>
      rw [if_neg (show ¬(!true) = true from by simp)]

theorem ledger_zombieCleanupStep (today : Int) (s : AppData) :
    ledger (zombieCleanupStep today s) = ledger s := rfl

theorem ledger_orphanCleanupStep (today : Int) (s : AppData) :
    ledger (orphanCleanupStep today s) = ledger s := rfl

theorem ledger_staleCleanupStep (today : Int) (s : AppData) :
    ledger (staleCleanupStep today s) = ledger s := rfl

theorem ledger_runMigrationsAndCleanup (now : Ts) (s : AppData) :
    ledger (runMigrationsAndCleanup now s) = ledger s := by
  unfold runMigrationsAndCleanup
  rw [ledger_staleCleanupStep, ledger_orphanCleanupStep, ledger_zombieCleanupStep,
    ledger_jan20FixStep, ledger_weekendRefundStep, ledger_economyRecalcStep,
    ledger_migrateCompletedTasks]

theorem ledger_backfillJan31For (pred : RecurringTask → Bool) (newId : Nat) (s : AppData) :
    ledger (backfillJan31For pred newId s) = ledger s := by
  unfold backfillJan31For
  cases hfind : s.recurringTasks.find? pred with
  | none => rfl
  | some task =>
      dsimp only
      split
      · rfl
      · unfold ledger
        dsimp only
        rw [statsLedger_incrementTaskCount]
        unfold statsLedger
        dsimp only
        ring

theorem ledger_cleanupExpiredTasks (now : Ts) (s : AppData) :
    ledger (cleanupExpiredTasks now s) = ledger s := rfl

theorem ledger_deleteRecurringTask (id : Nat) (s : AppData) :
    ledger (deleteRecurringTask id s) = ledger s := rfl

theorem ledger_applyOp (op : Op) (s : AppData) :
    ledger (applyOp op s) = ledger s + opSpend op s := by
  cases op with
  | toggle id now =>
      rw [show applyOp (.toggle id now) s = toggleTask id now s from rfl,
        ledger_toggleTask]
      simp [opSpend]
  | uncomplete id =>
      rw [show applyOp (.uncomplete id) s = uncompleteTask id s from rfl,
        ledger_uncompleteTask]
      simp [opSpend]
  | toggleRecurring id now =>
      rw [show applyOp (.toggleRecurring id now) s = toggleRecurringTask id now s from rfl,
        ledger_toggleRecurringTask]
      simp [opSpend]
  | subtaskTask p sub now =>
      rw [show applyOp (.subtaskTask p sub now) s = toggleSubtaskTask p sub now s from rfl,
        ledger_toggleSubtaskTask]
      simp [opSpend]
  | subtaskRecurring p sub now =>
      rw [show applyOp (.subtaskRecurring p sub now) s = toggleSubtaskRecurring p sub now s from rfl,
        ledger_toggleSubtaskRecurring]
      simp [opSpend]
  | claim target now =>
      exact ledger_confirmClaimReward target now s
  | deleteRecurring id =>
      rw [show applyOp (.deleteRecurring id) s = deleteRecurringTask id s from rfl,
        ledger_deleteRecurringTask]
      simp [opSpend]
  | migrate now =>
      rw [show applyOp (.migrate now) s = runMigrationsAndCleanup now s from rfl,
        ledger_runMigrationsAndCleanup]
      simp [opSpend]
  | cleanupExpired now =>
      rw [show applyOp (.cleanupExpired now) s = cleanupExpiredTasks now s from rfl,
        ledger_cleanupExpiredTasks]
      simp [opSpend]
  | backfill pred newId =>
      rw [show applyOp (.backfill pred newId) s = backfillJan31For pred newId s from rfl,
        ledger_backfillJan31For]
      simp [opSpend]

theorem ledger_run (ops : List Op) (s : AppData) :
    ledger (run ops s) = ledger s + totalSpend ops s := by
  induction ops generalizing s with
  | nil =>
      unfold run totalSpend
      ring
  | cons op rest ih =>
      unfold run totalSpend
      rw [ih, ledger_applyOp]
      ring

/-- Counterexample for C2 as stated: running the load-time migrations once
from the empty initial state (which applies the one-time weekend-sale
refund of 36 coins and the Jan-20 10-coin credit) leaves earned minus
balance at -36 while no reward or purchase was ever claimed. -/
theorem c2_counterexample :
    (run [Op.migrate ⟨0, 12⟩] initialData).stats.totalCoinsEarned
        - (run [Op.migrate ⟨0, 12⟩] initialData).stats.currentBalance
      ≠ totalSpend [Op.migrate ⟨0, 12⟩] initialData := by
  decide

/-- C2 (amended): in every state reachable from the empty initial state by
engine events (task complete/uncomplete, recurring toggles, subtask
toggles, shop purchases, custom-reward claims, recurring-task deletion,
and the load-time migration, cleanup and backfill routines), earned minus
balance equals the cumulative prices paid minus the one-time 36-coin
weekend-sale refund once that repair has been applied. -/
theorem c2_amended (ops : List Op) :
    (run ops initialData).stats.totalCoinsEarned
        - (run ops initialData).stats.currentBalance
      = totalSpend ops initialData
          - (if (run ops initialData).stats.weekendSaleRefund20260118 then 36 else 0) := by
  have h := ledger_run ops initialData
  have h0 : ledger initialData = 0 := rfl
  rw [h0] at h
  unfold ledger statsLedger at h
  by_cases hflag : (run ops initialData).stats.weekendSaleRefund20260118 = true
  · rw [hflag] at h ⊢
    simp only [if_pos rfl] at h ⊢
    omega
  · have hflag' : (run ops initialData).stats.weekendSaleRefund20260118 = false := by
      cases hv : (run ops initialData).stats.weekendSaleRefund20260118
      · rfl
      · exact absurd hv hflag
    rw [hflag'] at h ⊢
    simp only [Bool.false_eq_true, if_false] at h ⊢
    omega

end BrownBook
